import Mathlib

set_option linter.unusedVariables false

/-!
Verification of the schema-compiler core of the ts-to-zod repository
(src/core/generateZodSchema.ts) against its natural-language specification.

The development shallowly embeds the TypeScript source: the input type AST
(the subset of TypeScript type nodes handled by the compiler), the output
expression AST (the zod combinator-call trees built with the TypeScript
factory), and the compiler functions themselves, ported branch by branch
from the source file.  Utilities imported by the core but absent from the
repository snapshot (the jsDocTags module, findNode, isNotNull,
generateCombinations, extractLiteralValue) are modelled from the
specification; each such definition carries a doc comment saying so.

Side effects of the source are made explicit: pushes onto the shared
`dependencies` array and `console.warn` calls become a writer-style result
carrying the list of dependency names and warning texts in emission order,
and `throw new Error(...)` becomes the error case of `Except`.  Warning
texts are abbreviated from the console output of the source (they carry no
program meaning); thrown error messages are kept verbatim.

Node kinds the claims never exercise (function types, indexed-access
types) are outside the modelled subset; qualified-name type references
(enum member literals) are modelled as a dedicated constructor.
-/

/-- Literal payloads of a TypeScript LiteralTypeNode (and enum member
initializers): string, numeric, minus-prefixed numeric, booleans, null. -/
inductive Lit where
  | str (s : String)
  | num (s : String)
  | negNum (s : String)
  | btrue
  | bfalse
  | null
  deriving Repr, DecidableEq

/-- Property names of a property signature: identifier, string literal or
numeric literal (the kinds accepted by buildZodProperties). -/
inductive PropName where
  | ident (s : String)
  | strLit (s : String)
  | numLit (s : String)
  deriving Repr, DecidableEq

/-- The immutable tag map the external annotation extractor yields for one
syntactic node.  The fields are exactly the tags the embedded source reads. -/
structure JSDocTags where
  schema : Option String := none
  discriminator : Option String := none
  description : Option String := none
  minimum : Option String := none
  maximum : Option String := none
  minLength : Option String := none
  maxLength : Option String := none
  format : Option String := none
  pattern : Option String := none
  elementDescription : Option String := none
  elementMinimum : Option String := none
  elementMaximum : Option String := none
  elementMinLength : Option String := none
  elementMaxLength : Option String := none
  elementFormat : Option String := none
  elementPattern : Option String := none
  strict : Bool := false
  deriving Repr, DecidableEq

mutual

/-- The subset of TypeScript type nodes handled by the schema compiler. -/
inductive TsNode where
  | stringKw
  | numberKw
  | booleanKw
  | undefinedKw
  | anyKw
  | bigintKw
  | voidKw
  | neverKw
  | unknownKw
  | objectKw
  /-- A type reference with an identifier name; an empty argument list
  models an absent typeArguments array. -/
  | typeRef (name : String) (typeArgs : List TsNode)
  /-- A type reference with a qualified name, `enumName.memberName`. -/
  | enumRef (enumName : String) (memberName : String)
  | litType (lit : Lit)
  | unionType (types : List TsNode)
  | intersectionType (types : List TsNode)
  | arrayType (elementType : TsNode)
  | tupleType (elements : List TsNode)
  | restType (inner : TsNode)
  | namedTupleMember (name : String) (inner : TsNode)
  | typeLiteral (members : List TypeElement)
  | parenType (inner : TsNode)
  /-- Template literal type: static head plus spans, each span being the
  embedded type and the static literal text that follows it. -/
  | templateLiteral (head : String) (spans : List (TsNode × String))
  /-- A conditional type; the compiler has no rule for it (fallback). -/
  | conditionalType (checkT : TsNode) (extendsT : TsNode) (trueT : TsNode) (falseT : TsNode)
  deriving Repr

/-- Members of a type literal or interface body. -/
inductive TypeElement where
  /-- A property signature with its name, question-token flag, the tag map
  the annotation extractor yields for it, and its type. -/
  | prop (name : PropName) (optional : Bool) (tags : JSDocTags) (type : TsNode)
  /-- An index signature declaration (only its value type is consumed). -/
  | indexSig (type : TsNode)
  /-- Any other member kind (method signature, …): skipped everywhere. -/
  | other
  deriving Repr

end

/-- Top-level declarations of the source file.  An empty typeParams list
models an absent type parameter list. -/
inductive Statement where
  | interfaceDecl (name : String) (typeParams : List String)
      (heritage : List (Bool × List (String × List TsNode)))
      (members : List TypeElement) (tags : JSDocTags)
  | typeAliasDecl (name : String) (typeParams : List String)
      (type : TsNode) (tags : JSDocTags)
  | enumDecl (name : String) (members : List (String × Option Lit))
  deriving Repr

/-- The output AST: the subset of TypeScript expressions the compiler
builds with the factory. -/
inductive TsExpr where
  | ident (s : String)
  | strLit (s : String)
  | numLit (s : String)
  | negNumLit (s : String)
  | trueLit
  | falseLit
  | propAccess (obj : TsExpr) (name : String)
  | elemAccess (obj : TsExpr) (index : TsExpr)
  | call (callee : TsExpr) (args : List TsExpr)
  | arrayLit (elems : List TsExpr)
  | objectLit (props : List (String × TsExpr))
  deriving Repr

/-- A chained modifier: identifier plus optional argument expressions
(`none` models an absent argument array on the call). -/
structure ZodProperty where
  identifier : String
  expressions : Option (List TsExpr) := none
  deriving Repr

/-- Apply zod properties to an expression (as `.optional()`). -/
def withZodProperties (expression : TsExpr) (properties : List ZodProperty := []) : TsExpr :=
  properties.foldl
    (fun e property =>
      TsExpr.call (TsExpr.propAccess e property.identifier)
        (property.expressions.getD []))
    expression

/-- Build a zod schema call `z.callName(args…)` with chained properties. -/
def buildZodSchema (z : String) (callName : String)
    (args : List TsExpr := []) (properties : List ZodProperty := []) : TsExpr :=
  withZodProperties (TsExpr.call (TsExpr.propAccess (TsExpr.ident z) callName) args) properties

/-- Modelled from the spec: zodPropertyIsOptional of the external jsDocTags
module, the bare optional modifier. -/
def zodPropertyIsOptional : ZodProperty := ⟨"optional", none⟩

/-- Modelled from the spec: jsDocTagToZodProperties of the external
jsDocTags module.  Per the spec, the recognized documentation tags become
validator modifiers, the contextual optional/partial/required flags become
the corresponding chained modifiers, and nullability is attached as a
trailing nullable modifier. -/
def jsDocTagToZodProperties (tags : JSDocTags) (_customFormats : List (String × String))
    (isOptional isPartialFlag isRequiredFlag isNullable : Bool) : List ZodProperty :=
  (match tags.description with | some d => [⟨"describe", some [TsExpr.strLit d]⟩] | none => []) ++
  (match tags.minimum with | some v => [⟨"min", some [TsExpr.numLit v]⟩] | none => []) ++
  (match tags.maximum with | some v => [⟨"max", some [TsExpr.numLit v]⟩] | none => []) ++
  (match tags.minLength with | some v => [⟨"min", some [TsExpr.numLit v]⟩] | none => []) ++
  (match tags.maxLength with | some v => [⟨"max", some [TsExpr.numLit v]⟩] | none => []) ++
  (match tags.format with | some v => [⟨v, none⟩] | none => []) ++
  (match tags.pattern with | some v => [⟨"regex", some [TsExpr.strLit v]⟩] | none => []) ++
  (if isOptional then [zodPropertyIsOptional] else []) ++
  (if isPartialFlag then [⟨"partial", none⟩] else []) ++
  (if isRequiredFlag then [⟨"required", none⟩] else []) ++
  (if isNullable then [⟨"nullable", none⟩] else [])

/-- maybeCall: wrap an argument in a call to the bare identifier `maybe`,
with a trailing optional modifier when the member is optional. -/
def maybeCall (arg : TsExpr) (isOptional : Bool) : TsExpr :=
  withZodProperties (TsExpr.call (TsExpr.ident "maybe") [arg])
    (if isOptional then [zodPropertyIsOptional] else [])

/-- Source text of a literal node, as node.getText returns it (string
literals keep their quotes). -/
def litText : Lit → String
  | .str s => "\"" ++ s ++ "\""
  | .num s => s
  | .negNum s => "-" ++ s
  | .btrue => "true"
  | .bfalse => "false"
  | .null => "null"

/-- Source text of a property name node, as name.getText returns it. -/
def propNameText : PropName → String
  | .ident s => s
  | .strLit s => "\"" ++ s ++ "\""
  | .numLit s => s

/-- TypeScript SyntaxKind name of a node, as ts.SyntaxKind[kind] yields it
(used in error and warning texts). -/
def tsKindName : TsNode → String
  | .stringKw => "StringKeyword"
  | .numberKw => "NumberKeyword"
  | .booleanKw => "BooleanKeyword"
  | .undefinedKw => "UndefinedKeyword"
  | .anyKw => "AnyKeyword"
  | .bigintKw => "BigIntKeyword"
  | .voidKw => "VoidKeyword"
  | .neverKw => "NeverKeyword"
  | .unknownKw => "UnknownKeyword"
  | .objectKw => "ObjectKeyword"
  | .typeRef _ _ => "TypeReference"
  | .enumRef _ _ => "TypeReference"
  | .litType _ => "LiteralType"
  | .unionType _ => "UnionType"
  | .intersectionType _ => "IntersectionType"
  | .arrayType _ => "ArrayType"
  | .tupleType _ => "TupleType"
  | .restType _ => "RestType"
  | .namedTupleMember _ _ => "NamedTupleMember"
  | .typeLiteral _ => "TypeLiteral"
  | .parenType _ => "ParenthesizedType"
  | .templateLiteral _ _ => "TemplateLiteralType"
  | .conditionalType _ _ _ _ => "ConditionalType"

/-- Fallback warning for an unsupported node kind (text abbreviated from
the console output of the source). -/
def fallbackWarning (t : TsNode) : String :=
  "Warning: " ++ tsKindName t ++ " is not supported, fallback into z.any()"

/-- Modelled from the spec: the isNotNull utility is external to the
embedded core; per the spec, union compilation strips literal null
members. -/
def isNotNull : TsNode → Bool
  | .litType .null => false
  | _ => true

/-- Modelled from the spec: the extractLiteralValue utility is external to
the embedded core; it harvests the string value of a literal (an empty
string for a null literal, which the callers filter out). -/
def extractLiteralValue : Lit → String
  | .str s => s
  | .num s => s
  | .negNum s => "-" ++ s
  | .btrue => "true"
  | .bfalse => "false"
  | .null => ""

/-- Modelled from the spec: the generateCombinations utility is external
to the embedded core; it computes the cartesian product of the harvested
segment-value lists, interleaved in list order, earlier segments varying
slowest. -/
def generateCombinations : List (List String) → List String
  | [] => [""]
  | vs :: rest => vs.flatMap fun v => (generateCombinations rest).map fun r => v ++ r

/-- Maybe special-case configuration (optional/nullable flags and the set
of reserved generic type names). -/
structure MaybeConfig where
  optional : Bool
  nullable : Bool
  typeNames : List String
  deriving Repr, DecidableEq

/-- The default maybe configuration of the source. -/
def DefaultMaybeConfig : MaybeConfig := ⟨true, true, []⟩

/-- lower() of the case package: lower-case a word. -/
def lowerWord (s : String) : String := String.mk (s.data.map Char.toLower)

/-- Writer-style build result: value, dependency names pushed, warnings
emitted (both in emission order); Except.error models a thrown Error. -/
def BM (α : Type) : Type := Except String (α × List String × List String)

def BM.pure (a : α) : BM α := Except.ok (a, [], [])

def BM.bind (x : BM α) (f : α → BM β) : BM β :=
  match x with
  | .error e => .error e
  | .ok (a, d, w) =>
    match f a with
    | .error e => .error e
    | .ok (b, d2, w2) => .ok (b, d ++ d2, w ++ w2)

def BM.map (g : α → β) (x : BM α) : BM β :=
  match x with
  | .error e => .error e
  | .ok (a, d, w) => .ok (g a, d, w)

/-- Record a pushed dependency name alongside a value. -/
def BM.dep (d : String) (a : α) : BM α := Except.ok (a, [d], [])

/-- Record emitted warnings alongside a value. -/
def BM.warns (ws : List String) (a : α) : BM α := Except.ok (a, [], ws)

def BM.ofExcept (x : Except String α) : BM α :=
  match x with
  | .error e => .error e
  | .ok a => .ok (a, [], [])

/-- Sequence a build over each list element, left to right, passing the
membership fact through for termination. -/
def BM.mapMem : (xs : List γ) → ((a : γ) → a ∈ xs → BM β) → BM (List β)
  | [], _ => BM.pure []
  | x :: xs, f =>
    BM.bind (f x (List.mem_cons_self x xs)) fun b =>
    BM.bind (BM.mapMem xs (fun a h => f a (List.mem_cons_of_mem x h))) fun bs =>
    BM.pure (b :: bs)

/-- Mapping of a union key set to omit/pick parameters: each union member
must be a literal type; the first non-literal member throws. -/
def omitPickUnionParams (omitOrPickIdentifierName : String) :
    List TsNode → Except String (List (String × TsExpr))
  | [] => Except.ok []
  | t :: ts =>
    match t with
    | .litType l =>
      (omitPickUnionParams omitOrPickIdentifierName ts).map
        fun rest => (litText l, TsExpr.trueLit) :: rest
    | _ => Except.error (omitOrPickIdentifierName ++
        "<T, K> unknown syntax: (" ++ tsKindName t ++
        " as K union part not supported)")

/-- buildOmitPickObject: chained omit/pick projection call with an object
literal mapping each literal key to true; any other key-set syntax throws. -/
def buildOmitPickObject (omitOrPickIdentifierName : String) (keys : TsNode)
    (zodCall : TsExpr) : Except String TsExpr :=
  match keys with
  | .litType l =>
    Except.ok (TsExpr.call
      (TsExpr.propAccess zodCall (lowerWord omitOrPickIdentifierName))
      [TsExpr.objectLit [(litText l, TsExpr.trueLit)]])
  | .unionType types =>
    (omitPickUnionParams omitOrPickIdentifierName types).map
      fun params =>
        TsExpr.call
          (TsExpr.propAccess zodCall (lowerWord omitOrPickIdentifierName))
          [TsExpr.objectLit params]
  | _ =>
    Except.error (omitOrPickIdentifierName ++ "<T, K> unknown syntax: (" ++
      tsKindName keys ++ " as K not supported)")

/-- True for a literal-null type node (the union null-arm test of the
source). -/
def isNullLiteralNode : TsNode → Bool
  | .litType .null => true
  | _ => false

/-- The element tag map synthesized for an array element from the
element-prefixed tags of the array node. -/
def elementJSDocTags (t : JSDocTags) : JSDocTags :=
  { description := t.elementDescription
    minimum := t.elementMinimum
    maximum := t.elementMaximum
    minLength := t.elementMinLength
    maxLength := t.elementMaxLength
    format := t.elementFormat
    pattern := t.elementPattern }

/-- Erase the schema-override tag (the source deletes the field before the
internal compilation). -/
def eraseSchemaTag (t : JSDocTags) : JSDocTags := { t with schema := none }

/-- Unwrap a named tuple member to its inner type (other nodes pass
through). -/
def tupleNodeType : TsNode → TsNode
  | .namedTupleMember _ t => t
  | n => n

/-- True for a property-signature member. -/
def memberIsProp : TypeElement → Bool
  | .prop _ _ _ _ => true
  | _ => false

/-- Value type of an index-signature member. -/
def memberIndexType : TypeElement → Option TsNode
  | .indexSig t => some t
  | _ => none

/-- Validation loop of the discriminated-union annotation: stops with a
warning at the first arm that is neither an object literal nor a type
reference, or an object literal missing the discriminator member. -/
def checkDiscriminatedUnion (disc : String) : List TsNode → Bool × List String
  | [] => (true, [])
  | n :: ns =>
    match n with
    | .typeLiteral members =>
      if members.any fun m =>
          match m with
          | .prop pn _ _ _ => propNameText pn == disc
          | _ => false
      then checkDiscriminatedUnion disc ns
      else (false,
        ["Warning: discriminated union member missing discriminator field " ++ disc])
    | .typeRef _ _ => checkDiscriminatedUnion disc ns
    | .enumRef _ _ => checkDiscriminatedUnion disc ns
    | _ => (false,
        ["Warning: discriminated union member is not a type reference or object literal"])

/-- Reference name of a template span type, as typeName.getText returns it
(dotted for qualified names). -/
def refNameOf : TsNode → Option String
  | .typeRef n _ => some n
  | .enumRef l r => some (l ++ "." ++ r)
  | _ => none

/-- Modelled from the spec: the findNode utility is external to the
embedded core; it returns the first declaration of the source file
matching the predicate of the template-literal expander, namely a
type-alias declaration aliasing a union, or an enum declaration, whose
name equals the span reference name. -/
def findTemplateTarget (sf : List Statement) (name : String) : Option Statement :=
  sf.find? fun st =>
    match st with
    | .typeAliasDecl n _ t _ =>
      (match t with | .unionType _ => true | _ => false) && n == name
    | .enumDecl n _ => n == name
    | _ => false

/-- Result of harvesting the template-literal spans: the soft-degrade flag,
the deferred null-arm flag, the harvested segment-value lists (span values
and span literal tails, in order), and the emitted warnings. -/
structure HarvestOut where
  ignoreNode : Bool
  hasNull : Bool
  lists : List (List String)
  warnings : List String
  deriving Repr

/-- Harvest one template span (its embedded type and trailing literal). -/
def harvestSpan (sf : List Statement) (ty : TsNode) (tail : String) : HarvestOut :=
  match refNameOf ty with
  | some name =>
    match findTemplateTarget sf name with
    | some (.typeAliasDecl _ _ (.unionType types) _) =>
      { ignoreNode := false
        hasNull := types.any isNullLiteralNode
        lists := [(types.map fun t =>
            match t with
            | .litType l => extractLiteralValue l
            | _ => "").filter (· ≠ ""), [tail]]
        warnings := [] }
    | some (.enumDecl enumName members) =>
      { ignoreNode := members.any fun m => m.2.isNone
        hasNull := false
        lists := [(members.map fun m =>
            match m.2 with
            | some l => extractLiteralValue l
            | none => "").filter (· ≠ ""), [tail]]
        warnings := members.filterMap fun m =>
          match m.2 with
          | some _ => none
          | none => some ("Warning: enum member without initializer " ++
              enumName ++ "." ++ m.1 ++ " is not supported in Template Literal") }
    | _ =>
      { ignoreNode := true
        hasNull := false
        lists := [[tail]]
        warnings := ["Warning: reference not found " ++ name ++ " in Template Literal"] }
  | none =>
    { ignoreNode := true
      hasNull := false
      lists := []
      warnings := ["Warning: node not supported in Template Literal"] }

/-- Harvest all template spans, left to right, accumulating flags, value
lists and warnings. -/
def harvestSpans (sf : List Statement) : List (TsNode × String) → HarvestOut
  | [] => ⟨false, false, [], []⟩
  | (ty, tail) :: rest =>
    let h1 := harvestSpan sf ty tail
    let h2 := harvestSpans sf rest
    ⟨h1.ignoreNode || h2.ignoreNode, h1.hasNull || h2.hasNull,
      h1.lists ++ h2.lists, h1.warnings ++ h2.warnings⟩

/-- One extends-clause entry, as the variable-statement entry reduces the
heritage clauses. -/
structure SchemaExtensionClause where
  extendedSchemaName : String
  omitOrPickType : Option String := none
  omitOrPickKeys : Option TsNode := none
  deriving Repr

def BM.throwErr (e : String) : BM α := Except.error e

/-- The extend-call fold of buildZodExtendedSchema over the clauses after
the first. -/
def extendFold (zodCall : TsExpr) : List SchemaExtensionClause → Except String TsExpr
  | [] => Except.ok zodCall
  | c :: cs =>
    match c.omitOrPickType, c.omitOrPickKeys with
    | some opName, some keys =>
      match buildOmitPickObject opName keys (TsExpr.ident c.extendedSchemaName) with
      | .error e => .error e
      | .ok proj =>
        extendFold (TsExpr.call (TsExpr.propAccess zodCall "extend")
          [TsExpr.propAccess proj "shape"]) cs
    | _, _ =>
      extendFold (TsExpr.call (TsExpr.propAccess zodCall "extend")
        [TsExpr.propAccess (TsExpr.ident c.extendedSchemaName) "shape"]) cs

/-- buildZodExtendedSchema: first clause as the chain base (with its own
projection, when present), later clauses folded in through extend calls on
their shapes, then one extend call with the own-member object literal when
present.  The source reads schemaList[0] unconditionally and crashes on an
empty list; the model makes that an error. -/
def buildZodExtendedSchema (schemaList : List SchemaExtensionClause)
    (args : Option (List TsExpr) := none) (properties : List ZodProperty := []) :
    Except String TsExpr :=
  match schemaList with
  | [] => Except.error "buildZodExtendedSchema: empty schema list"
  | first :: rest =>
    let base : Except String TsExpr :=
      match first.omitOrPickType, first.omitOrPickKeys with
      | some opName, some keys =>
        buildOmitPickObject opName keys (TsExpr.ident first.extendedSchemaName)
      | _, _ => Except.ok (TsExpr.ident first.extendedSchemaName)
    match base with
    | .error e => .error e
    | .ok b =>
      match extendFold b rest with
      | .error e => .error e
      | .ok zc =>
        let zc2 :=
          match args with
          | some as2 =>
            if as2.length > 0 then
              TsExpr.call (TsExpr.propAccess zc "extend") as2
            else zc
          | none => zc
        Except.ok (withZodProperties zc2 properties)

/-- The build context: the zod import value, the parsed source file, the
dependency-name deriver and the configuration threaded through every
build call. -/
structure BuildCtx where
  z : String
  sourceFile : List Statement
  getDependencyName : String → String
  skipParseJSDoc : Bool
  customJSDocFormatTypes : List (String × String)
  maybeConfig : MaybeConfig

/-- The per-call parameters of buildZodPrimitive (absent optional booleans
of the source are the default false). -/
structure PrimParams where
  typeNode : TsNode
  isOptional : Bool
  isNullable : Bool := false
  isPartialFlag : Bool := false
  isRequiredFlag : Bool := false
  jsDocTags : JSDocTags
  deriving Repr

theorem tupleNodeType_sizeOf_le (n : TsNode) : sizeOf (tupleNodeType n) ≤ sizeOf n := by
  cases n <;> simp [tupleNodeType]

/-- Kind test for the string keyword (the Record key check of the source
compares node kinds). -/
def isStringKeyword : TsNode → Bool
  | .stringKw => true
  | _ => false

theorem memberIndexType_sizeOf_lt {m : TypeElement} {t : TsNode}
    (h : memberIndexType m = some t) : sizeOf t < sizeOf m := by
  cases m with
  | prop n o tg ty => simp [memberIndexType] at h
  | indexSig ty => simp [memberIndexType] at h; subst h; simp
  | other => simp [memberIndexType] at h

mutual

/-- buildZodPrimitive: applies the schema-override tag, then delegates to
the internal builder with the override tag erased. -/
def buildZodPrimitive (ctx : BuildCtx) (p : PrimParams) : BM TsExpr :=
  match p.jsDocTags.schema with
  | some s =>
    if !(s.startsWith ".") then
      BM.pure (TsExpr.propAccess (TsExpr.ident ctx.z) s)
    else
      BM.map (fun g => TsExpr.propAccess g (s.drop 1))
        (buildZodPrimitiveInternal ctx
          { p with jsDocTags := eraseSchemaTag p.jsDocTags })
  | none =>
    buildZodPrimitiveInternal ctx
      { p with jsDocTags := eraseSchemaTag p.jsDocTags }
termination_by 3 * sizeOf p.typeNode + 2
decreasing_by
all_goals simp_wf

/-- The node-kind dispatch of the schema compiler, ported branch by branch
from buildZodPrimitiveInternal of the source. -/
def buildZodPrimitiveInternal (ctx : BuildCtx) (p : PrimParams) : BM TsExpr :=
  let zodProperties := jsDocTagToZodProperties p.jsDocTags ctx.customJSDocFormatTypes
    p.isOptional p.isPartialFlag p.isRequiredFlag p.isNullable
  match hnode : p.typeNode with
  | .parenType inner =>
    -- the source forwards only isNullable, isOptional and the tags here
    buildZodPrimitive ctx
      { typeNode := inner, isOptional := p.isOptional,
        isNullable := p.isNullable, jsDocTags := p.jsDocTags }
  | .typeRef name args =>
    match hargs : args with
    | inner :: restArgs =>
      if ctx.maybeConfig.typeNames.contains name then
        BM.map (fun e => maybeCall e p.isOptional)
          (buildZodPrimitive ctx
            { typeNode := inner, isOptional := false,
              isNullable := p.isNullable, isPartialFlag := p.isPartialFlag,
              isRequiredFlag := p.isRequiredFlag, jsDocTags := {} })
      else if name = "Array" then
        buildZodPrimitive ctx
          { typeNode := .arrayType inner, isOptional := p.isOptional,
            isNullable := p.isNullable, isPartialFlag := p.isPartialFlag,
            isRequiredFlag := p.isRequiredFlag, jsDocTags := p.jsDocTags }
      else if name = "Partial" then
        buildZodPrimitive ctx
          { typeNode := inner, isOptional := p.isOptional,
            isNullable := p.isNullable, isPartialFlag := true,
            jsDocTags := p.jsDocTags }
      else if name = "Required" then
        buildZodPrimitive ctx
          { typeNode := inner, isOptional := p.isOptional,
            isNullable := p.isNullable, isRequiredFlag := true,
            jsDocTags := p.jsDocTags }
      else if name = "Readonly" then
        buildZodPrimitive ctx
          { typeNode := inner, isOptional := p.isOptional,
            isNullable := p.isNullable, jsDocTags := p.jsDocTags }
      else if name = "ReadonlyArray" then
        BM.map (fun e => buildZodSchema ctx.z "array" [e] zodProperties)
          (buildZodPrimitive ctx
            { typeNode := inner, isOptional := false,
              isNullable := p.isNullable, jsDocTags := {} })
      else if name = "Record" then
        match hrest : restArgs with
        | second :: _ =>
          if isStringKeyword inner then
            BM.map (fun e => buildZodSchema ctx.z "record" [e] zodProperties)
              (buildZodPrimitive ctx
                { typeNode := second, isOptional := false,
                  isNullable := p.isNullable, jsDocTags := p.jsDocTags })
          else
            BM.bind (buildZodPrimitive ctx
                { typeNode := inner, isOptional := false,
                  isNullable := p.isNullable, jsDocTags := p.jsDocTags }) fun k =>
            BM.bind (buildZodPrimitive ctx
                { typeNode := second, isOptional := false,
                  isNullable := p.isNullable, isPartialFlag := false,
                  jsDocTags := p.jsDocTags }) fun v =>
            BM.pure (buildZodSchema ctx.z "record" [k, v] zodProperties)
        | [] =>
          -- the source reads typeArguments[1] unconditionally and crashes
          BM.throwErr "model: Record reference with a single type argument"
      else if name = "Date" then
        BM.pure (buildZodSchema ctx.z "date" [] zodProperties)
      else if name = "Set" then
        BM.map (fun es => buildZodSchema ctx.z "set" es zodProperties)
          (BM.mapMem args (fun a hmem =>
            buildZodPrimitive ctx
              { typeNode := a, isOptional := false,
                isNullable := p.isNullable, jsDocTags := p.jsDocTags }))
      else if name = "Promise" then
        BM.map (fun es => buildZodSchema ctx.z "promise" es zodProperties)
          (BM.mapMem args (fun a hmem =>
            buildZodPrimitive ctx
              { typeNode := a, isOptional := false,
                isNullable := p.isNullable, jsDocTags := p.jsDocTags }))
      else if name = "Omit" ∨ name = "Pick" then
        match hrest : restArgs with
        | keys :: _ =>
          BM.bind (buildZodPrimitive ctx
              { typeNode := inner, isOptional := false,
                isNullable := p.isNullable, jsDocTags := {} }) fun zodCall =>
          BM.ofExcept (buildOmitPickObject name keys zodCall)
        | [] =>
          -- the source destructures two type arguments and crashes on one
          BM.throwErr "model: Omit or Pick reference with a single type argument"
      else
        BM.dep (ctx.getDependencyName name)
          (withZodProperties (TsExpr.ident (ctx.getDependencyName name)) zodProperties)
    | [] =>
      if name = "Date" then
        BM.pure (buildZodSchema ctx.z "date" [] zodProperties)
      else
        BM.dep (ctx.getDependencyName name)
          (withZodProperties (TsExpr.ident (ctx.getDependencyName name)) zodProperties)
  | .enumRef enumName memberName =>
    BM.pure (buildZodSchema ctx.z "literal"
      [TsExpr.propAccess (TsExpr.ident enumName) memberName] zodProperties)
  | .unionType types =>
    let hasNull := types.any isNullLiteralNode
    match hfil : types.filter isNotNull with
    | [node1] =>
      -- a single remaining arm is compiled directly (no one-arm union)
      buildZodPrimitive ctx
        { typeNode := node1, isOptional := p.isOptional,
          isNullable := hasNull, jsDocTags := p.jsDocTags }
    | nodes =>
      BM.bind (BM.mapMem nodes (fun i hmem =>
          buildZodPrimitive ctx
            { typeNode := i, isOptional := false,
              isNullable := false, jsDocTags := {} })) fun values =>
      let zodProperties2 := zodProperties ++
        (if hasNull then [⟨"nullable", none⟩] else [])
      match p.jsDocTags.discriminator with
      | some disc =>
        match checkDiscriminatedUnion disc nodes with
        | (true, ws) =>
          BM.warns ws (buildZodSchema ctx.z "discriminatedUnion"
            [TsExpr.strLit disc, TsExpr.arrayLit values] zodProperties2)
        | (false, ws) =>
          BM.warns ws (buildZodSchema ctx.z "union"
            [TsExpr.arrayLit values] zodProperties2)
      | none =>
        BM.pure (buildZodSchema ctx.z "union" [TsExpr.arrayLit values] zodProperties2)
  | .tupleType elements =>
    match hlast : elements.getLast? with
    | some (.restType (.arrayType restElement)) =>
      BM.bind (BM.mapMem elements.dropLast (fun node hmem =>
          buildZodPrimitive ctx
            { typeNode := tupleNodeType node, isOptional := false,
              isNullable := p.isNullable, jsDocTags := {} })) fun values =>
      BM.bind (buildZodPrimitive ctx
          { typeNode := restElement, isNullable := p.isNullable,
            isOptional := false, jsDocTags := {} }) fun restExpr =>
      BM.pure (buildZodSchema ctx.z "tuple" [TsExpr.arrayLit values]
        (⟨"rest", some [restExpr]⟩ :: zodProperties))
    | _ =>
      BM.map (fun values => buildZodSchema ctx.z "tuple"
          [TsExpr.arrayLit values] zodProperties)
        (BM.mapMem elements (fun node hmem =>
          buildZodPrimitive ctx
            { typeNode := tupleNodeType node, isOptional := false,
              isNullable := p.isNullable, jsDocTags := {} }))
  | .litType l =>
    match l with
    | .str s => BM.pure (buildZodSchema ctx.z "literal" [TsExpr.strLit s] zodProperties)
    | .num s => BM.pure (buildZodSchema ctx.z "literal" [TsExpr.numLit s] zodProperties)
    | .negNum s => BM.pure (buildZodSchema ctx.z "literal" [TsExpr.negNumLit s] zodProperties)
    | .btrue => BM.pure (buildZodSchema ctx.z "literal" [TsExpr.trueLit] zodProperties)
    | .bfalse => BM.pure (buildZodSchema ctx.z "literal" [TsExpr.falseLit] zodProperties)
    | .null =>
      -- falls through the literal cases to the getText-named call branch
      BM.pure (buildZodSchema ctx.z "null" [] zodProperties)
  | .arrayType elementType =>
    BM.map (fun e => buildZodSchema ctx.z "array" [e] zodProperties)
      (buildZodPrimitive ctx
        { typeNode := elementType, isOptional := false,
          isNullable := p.isNullable, jsDocTags := elementJSDocTags p.jsDocTags })
  | .typeLiteral members =>
    BM.map (fun obj => withZodProperties obj zodProperties)
      (buildZodObject ctx members none)
  | .intersectionType types =>
    match htys : types with
    | [] =>
      -- the source destructures the first arm and crashes on an empty list
      BM.throwErr "model: empty intersection type"
    | base :: rest =>
      BM.bind (buildZodPrimitive ctx
          { typeNode := base, isOptional := false, jsDocTags := {} }) fun basePrimitive =>
      BM.bind (BM.mapMem rest (fun node hmem =>
          buildZodPrimitive ctx
            { typeNode := node, isOptional := false, jsDocTags := {} })) fun arms =>
      BM.pure (withZodProperties
        (arms.foldl (fun acc e => TsExpr.call (TsExpr.propAccess acc "and") [e])
          basePrimitive)
        zodProperties)
  | .stringKw => BM.pure (buildZodSchema ctx.z "string" [] zodProperties)
  | .booleanKw => BM.pure (buildZodSchema ctx.z "boolean" [] zodProperties)
  | .undefinedKw => BM.pure (buildZodSchema ctx.z "undefined" [] zodProperties)
  | .numberKw => BM.pure (buildZodSchema ctx.z "number" [] zodProperties)
  | .anyKw => BM.pure (buildZodSchema ctx.z "any" [] zodProperties)
  | .bigintKw => BM.pure (buildZodSchema ctx.z "bigint" [] zodProperties)
  | .voidKw => BM.pure (buildZodSchema ctx.z "void" [] zodProperties)
  | .neverKw => BM.pure (buildZodSchema ctx.z "never" [] zodProperties)
  | .unknownKw => BM.pure (buildZodSchema ctx.z "unknown" [] zodProperties)
  | .objectKw =>
    BM.pure (buildZodSchema ctx.z "record" [buildZodSchema ctx.z "any"] zodProperties)
  | .templateLiteral head spans =>
    let h := harvestSpans ctx.sourceFile spans
    let spanValues := [head] :: h.lists
    let zodProperties2 := zodProperties ++
      (if h.hasNull then [⟨"nullable", none⟩] else [])
    if !h.ignoreNode then
      BM.warns h.warnings (buildZodSchema ctx.z "union"
        [TsExpr.arrayLit ((generateCombinations spanValues).map fun v =>
          buildZodSchema ctx.z "literal" [TsExpr.strLit v])]
        zodProperties2)
    else
      BM.warns (h.warnings ++ ["Warning: falling back into z.any()"])
        (buildZodSchema ctx.z "any" [] zodProperties2)
  | .conditionalType a b c d =>
    BM.warns [fallbackWarning (.conditionalType a b c d)]
      (buildZodSchema ctx.z "any" [] zodProperties)
  | .restType t =>
    BM.warns [fallbackWarning (.restType t)]
      (buildZodSchema ctx.z "any" [] zodProperties)
  | .namedTupleMember n t =>
    BM.warns [fallbackWarning (.namedTupleMember n t)]
      (buildZodSchema ctx.z "any" [] zodProperties)
termination_by 3 * sizeOf p.typeNode + 1
decreasing_by
all_goals simp_wf
all_goals try have hs1 := List.sizeOf_lt_of_mem hmem
all_goals try have hs2 := List.sizeOf_lt_of_mem (List.mem_of_mem_filter (hfil ▸ hmem))
all_goals try have hs3 := List.sizeOf_lt_of_mem (List.dropLast_subset _ hmem)
all_goals try have hs4 := List.sizeOf_lt_of_mem (List.mem_of_getLast?_eq_some hlast)
all_goals try have hs5 := tupleNodeType_sizeOf_le node
all_goals try have hs6 := List.sizeOf_lt_of_mem (List.mem_of_mem_filter (show node1 ∈ List.filter isNotNull types from by rw [hfil]; exact List.mem_cons_self node1 []))
all_goals try simp only [hnode] at *
all_goals try simp only [hargs] at *
all_goals try simp only [hrest] at *
all_goals try simp only [htys] at *
all_goals simp_arith at *
all_goals omega

/-- One step of the buildZodProperties loop of the source: a property
signature compiles its type with its own optional flag and tag map (or an
empty map when JSDoc parsing is skipped); other member kinds are
skipped. -/
def buildZodPropertyEntry (ctx : BuildCtx) : TypeElement → BM (Option (PropName × TsExpr))
  | .prop name opt tags ty =>
    BM.map (fun e => some (name, e))
      (buildZodPrimitive ctx
        { typeNode := ty, isOptional := opt,
          jsDocTags := if ctx.skipParseJSDoc then {} else tags })
  | .indexSig _ => BM.pure none
  | .other => BM.pure none
termination_by m => 3 * sizeOf m
decreasing_by
all_goals simp_wf
all_goals simp_arith

/-- buildZodObject: partition members into property signatures and the
index signature, build the member map through buildZodPropertyEntry, then
assemble the object, extension chain and record-intersection cases. -/
def buildZodObject (ctx : BuildCtx) (members : List TypeElement)
    (schemaExtensionClauses : Option (List SchemaExtensionClause)) : BM TsExpr :=
  let properties := members.filter memberIsProp
  let indexSignature := (members.filterMap memberIndexType).getLast?
  BM.bind
    (if properties.length > 0 then
      BM.mapMem properties (fun m hmem => buildZodPropertyEntry ctx m)
    else BM.pure [])
  fun parsedOpt =>
  let parsedProperties := parsedOpt.reduceOption
  let propsLit := TsExpr.objectLit
    (parsedProperties.map fun pr => (propNameText pr.1, pr.2))
  let objectSchemaE : Except String (Option TsExpr) :=
    match schemaExtensionClauses with
    | some clauses =>
      if clauses.length > 0 then
        (buildZodExtendedSchema clauses
          (if properties.length > 0 then some [propsLit] else none)).map some
      else if properties.length > 0 then
        Except.ok (some (buildZodSchema ctx.z "object" [propsLit]))
      else Except.ok none
    | none =>
      if properties.length > 0 then
        Except.ok (some (buildZodSchema ctx.z "object" [propsLit]))
      else Except.ok none
  match objectSchemaE with
  | .error e => BM.throwErr e
  | .ok objectSchema =>
    match hidx : indexSignature with
    | some idxType =>
      if schemaExtensionClauses.isSome then
        BM.throwErr "interface with `extends` and index signature are not supported!"
      else
        BM.bind (buildZodPrimitive ctx
            { typeNode := idxType, isOptional := false, jsDocTags := {} }) fun v =>
        let indexSignatureSchema := buildZodSchema ctx.z "record" [v]
        match objectSchema with
        | some obj =>
          BM.pure (TsExpr.call (TsExpr.propAccess indexSignatureSchema "and") [obj])
        | none => BM.pure indexSignatureSchema
    | none =>
      match objectSchema with
      | some obj => BM.pure obj
      | none => BM.pure (buildZodSchema ctx.z "object" [TsExpr.objectLit []])
termination_by 3 * sizeOf members
decreasing_by
all_goals simp_wf
all_goals first
| (have hs1 := List.sizeOf_lt_of_mem (List.mem_of_mem_filter hmem); simp_arith at hs1; omega)
| (obtain ⟨mm, hmm, hmt⟩ := List.mem_filterMap.mp (List.mem_of_getLast?_eq_some (hidx : (List.filterMap memberIndexType members).getLast? = some idxType)); have hs7 := memberIndexType_sizeOf_lt hmt; have hs8 := List.sizeOf_lt_of_mem hmm; omega)

end

/-- Source text of a type node, as node.getText returns it on the modelled
subset (whitespace normalized; bodies of object literals elided). -/
def tsNodeText (t : TsNode) : String :=
  match t with
  | .stringKw => "string"
  | .numberKw => "number"
  | .booleanKw => "boolean"
  | .undefinedKw => "undefined"
  | .anyKw => "any"
  | .bigintKw => "bigint"
  | .voidKw => "void"
  | .neverKw => "never"
  | .unknownKw => "unknown"
  | .objectKw => "object"
  | .typeRef n [] => n
  | .typeRef n (a :: rest) => n ++ "<" ++
      String.intercalate ", " (((a :: rest).attach).map fun x => tsNodeText x.1) ++ ">"
  | .enumRef l r => l ++ "." ++ r
  | .litType l => litText l
  | .unionType types =>
      String.intercalate " | " ((types.attach).map fun x => tsNodeText x.1)
  | .intersectionType types =>
      String.intercalate " & " ((types.attach).map fun x => tsNodeText x.1)
  | .arrayType e => tsNodeText e ++ "[]"
  | .tupleType es =>
      "[" ++ String.intercalate ", " ((es.attach).map fun x => tsNodeText x.1) ++ "]"
  | .restType e => "..." ++ tsNodeText e
  | .namedTupleMember n e => n ++ ": " ++ tsNodeText e
  | .typeLiteral _ => "\x7b ... \x7d"
  | .parenType e => "(" ++ tsNodeText e ++ ")"
  | .templateLiteral _ _ => "`...`"
  | .conditionalType a b c d =>
      tsNodeText a ++ " extends " ++ tsNodeText b ++ " ? " ++
        tsNodeText c ++ " : " ++ tsNodeText d
termination_by sizeOf t
decreasing_by
all_goals simp_wf
all_goals try (rcases x with ⟨x, hx⟩; have := List.sizeOf_lt_of_mem hx; simp_all)
all_goals simp_arith
all_goals try omega

/-- uniq of lodash: deduplicate keeping the first occurrence of each
element, order preserved. -/
def uniqKeepFirst : List String → List String
  | [] => []
  | x :: xs => x :: uniqKeepFirst (xs.filter fun y => y != x)
termination_by l => l.length
decreasing_by
simp_wf
have := List.length_filter_le (fun y => y != x) xs
omega

/-- The extends-clause reduction of the variable-statement entry: each
heritage clause with the extends token contributes one extension clause
per referenced type, with Omit and Pick references turned into projection
clauses over their first type argument. -/
def heritageClauses (getDependencyName : String → String)
    (heritage : List (Bool × List (String × List TsNode))) : List SchemaExtensionClause :=
  heritage.foldl (fun deps h =>
    if !h.1 then deps
    else deps ++ h.2.map (fun e =>
      if (e.1 == "Omit" || e.1 == "Pick") && !e.2.isEmpty then
        match e.2 with
        | originalType :: restA =>
          { extendedSchemaName := getDependencyName (tsNodeText originalType)
            omitOrPickType := some e.1
            omitOrPickKeys := restA.head? }
        | [] => { extendedSchemaName := getDependencyName e.1 }
      else { extendedSchemaName := getDependencyName e.1 })) []

/-- Output of the variable-statement entry: the deduplicated dependency
names, the declared variable, its schema expression, the enum-import flag
and the warnings collected while building. -/
structure ZodVarStatement where
  dependencies : List String
  varName : String
  schema : Option TsExpr
  enumImport : Bool
  warnings : List String
  deriving Repr

/-- generateZodSchemaVariableStatement: compile one declaration into a
standalone named schema.  Generic-bearing interface and type-alias
declarations are rejected with a hard error before anything else. -/
def generateZodSchemaVariableStatement (ctx : BuildCtx) (varName : String)
    (node : Statement) : Except String ZodVarStatement :=
  match node with
  | .interfaceDecl _name typeParams heritage members tags =>
    if !typeParams.isEmpty then
      Except.error "Interface with generics are not supported!"
    else
      let schemaExtensionClauses :=
        if heritage.isEmpty then none
        else some (heritageClauses ctx.getDependencyName heritage)
      let dependencies0 :=
        match schemaExtensionClauses with
        | some cls => cls.map fun c => c.extendedSchemaName
        | none => []
      match buildZodObject ctx members schemaExtensionClauses with
      | .error e => .error e
      | .ok (schema0, deps, warns) =>
        let schema1 :=
          if !ctx.skipParseJSDoc && tags.strict then
            TsExpr.call (TsExpr.propAccess schema0 "strict") []
          else schema0
        Except.ok
          { dependencies := uniqKeepFirst (dependencies0 ++ deps)
            varName := varName
            schema := some schema1
            enumImport := false
            warnings := warns }
  | .typeAliasDecl _name typeParams ty tags =>
    if !typeParams.isEmpty then
      Except.error "Type with generics are not supported!"
    else
      let jsDocTags := if ctx.skipParseJSDoc then {} else tags
      match buildZodPrimitive ctx
          { typeNode := ty, isOptional := false, jsDocTags := jsDocTags } with
      | .error e => .error e
      | .ok (schema0, deps, warns) =>
        Except.ok
          { dependencies := uniqKeepFirst deps
            varName := varName
            schema := some schema0
            enumImport := false
            warnings := warns }
  | .enumDecl name _ =>
    Except.ok
      { dependencies := []
        varName := varName
        schema := some (buildZodSchema ctx.z "nativeEnum" [TsExpr.ident name])
        enumImport := true
        warnings := [] }

/-- Runtime zod schema values constructed by the generics-aware entry (the
sample switch of the source builds only these). -/
inductive ZodType where
  | string
  | number
  | boolean
  | unknown
  | optional (inner : ZodType)
  | nullable (inner : ZodType)
  | object (shape : List (String × ZodType))
  deriving Repr

/-- Result of the generics-aware entry: a value, a thrown Error, or
divergence (the fuel models the nonterminating self-recursion of the
sample switch). -/
inductive GRes (α : Type) where
  | ok (a : α)
  | err (msg : String)
  | diverge
  deriving Repr

/-- The state threaded through the generics-aware entry: the Generic
Environment, the maybe configuration and the parsed source file. -/
structure GenState where
  genericMap : List (String × TsNode)
  maybeConfig : MaybeConfig
  rawFileAst : Option (List Statement)

/-- Map.get of the Generic Environment. -/
def mapGet (m : List (String × TsNode)) (k : String) : Option TsNode :=
  (m.find? fun kv => kv.1 == k).map fun kv => kv.2

/-- Map.set of the Generic Environment: overwrite in place, append new
keys at the end (insertion order preserved, as for a JS Map). -/
def mapSet (m : List (String × TsNode)) (k : String) (v : TsNode) : List (String × TsNode) :=
  if m.any fun kv => kv.1 == k then
    m.map fun kv => if kv.1 == k then (k, v) else kv
  else m ++ [(k, v)]

/-- Map.delete of the Generic Environment. -/
def mapErase (m : List (String × TsNode)) (k : String) : List (String × TsNode) :=
  m.filter fun kv => kv.1 != k

/-- Type parameter names of a declaration (empty list for an absent
parameter list). -/
def declTypeParams : Statement → List String
  | .interfaceDecl _ tps _ _ _ => tps
  | .typeAliasDecl _ tps _ _ => tps
  | .enumDecl _ _ => []

/-- findInterfaceOrTypeAliasDecl: first interface or type-alias statement
of the source file with the given name. -/
def findInterfaceOrTypeAliasDecl (name : String) (sf : Option (List Statement)) :
    Option Statement :=
  match sf with
  | none => none
  | some stmts =>
    (stmts.filter fun stmt =>
      match stmt with
      | .interfaceDecl n _ _ _ _ => n == name
      | .typeAliasDecl n _ _ _ => n == name
      | _ => false).head?

/-- isLiteralTrueNode: the type node is the boolean literal true. -/
def isLiteralTrueNode : TsNode → Bool
  | .litType .btrue => true
  | _ => false

/-- Input of the generics-aware entry: a type node or a declaration (the
source takes a ts.Node covering both). -/
inductive GNode where
  | typeNode (t : TsNode)
  | stmt (s : Statement)

mutual

/-- generateZodSchema: the generics-aware entry of the source.  Rule
order: generic declaration expansion (a reference with type arguments to
a generic declaration of the source file), then Generic Environment
substitution, then the reserved maybe-interface special case, then the
sample switch. -/
def generateZodSchema : Nat → GNode → GenState → GRes ZodType
  | 0, _, _ => .diverge
  | fuel+1, node, st =>
    match node with
    | .typeNode (.typeRef name args) =>
      match hexp : (if args.isEmpty then none
          else match findInterfaceOrTypeAliasDecl name st.rawFileAst with
            | some d => if (declTypeParams d).isEmpty then none else some d
            | none => none) with
      | some decl =>
        let newMap := ((declTypeParams decl).enum).foldl
          (fun m ip =>
            match args.get? ip.1 with
            | some concreteArg => mapSet m ip.2 concreteArg
            | none => m) st.genericMap
        generateZodSchema fuel (.stmt decl) { st with genericMap := newMap }
      | none =>
        match mapGet st.genericMap name with
        | some bound => generateZodSchema fuel (.typeNode bound) st
        | none => generateZodSwitch fuel node st
    | .stmt (.interfaceDecl iname itps _iher imems _itags) =>
      if st.maybeConfig.typeNames.contains iname then
        generateMaybeInterfaceSchema fuel iname itps imems st
      else generateZodSwitch fuel node st
    | _ => generateZodSwitch fuel node st
termination_by fuel _ _ => (fuel, 0, 0)

/-- generateMaybeInterfaceSchema: requires exactly one generic parameter,
resolves it from the Generic Environment with the literal true as the
fallback, deletes it from the environment, and compiles the members with
the optional-and-nullable override when the parameter is not the literal
true. -/
def generateMaybeInterfaceSchema (fuel : Nat) (name : String) (typeParams : List String)
    (members : List TypeElement) (st : GenState) : GRes ZodType :=
  match typeParams with
  | [p] =>
    let concreteGeneric := (mapGet st.genericMap p).getD (TsNode.litType .btrue)
    let enabled := isLiteralTrueNode concreteGeneric
    generateInterfaceMembersSchema fuel members
      { st with genericMap := mapErase st.genericMap p } (!enabled)
  | _ =>
    .err ("[ts-to-zod] maybeTypeNames interface " ++ name ++
      " must have exactly one generic parameter")
termination_by (fuel, 3, 0)

/-- generateInterfaceMembersSchema: z.object over the member shape. -/
def generateInterfaceMembersSchema (fuel : Nat) (members : List TypeElement)
    (st : GenState) (makeOptionalNullable : Bool) : GRes ZodType :=
  match genShape fuel members st makeOptionalNullable with
  | .ok shape => .ok (.object shape)
  | .err e => .err e
  | .diverge => .diverge
termination_by (fuel, 2, 0)

/-- The member loop of generateInterfaceMembersSchema: property members
compile their type and are wrapped optional and nullable per the maybe
configuration (overriding the member flag) or optional per their own
question token. -/
def genShape (fuel : Nat) (members : List TypeElement) (st : GenState)
    (makeOptionalNullable : Bool) : GRes (List (String × ZodType)) :=
  match members with
  | [] => .ok []
  | m :: rest =>
    match m with
    | .prop pname popt _ptags ptype =>
      match generateZodSchema fuel (.typeNode ptype) st with
      | .ok propSchema =>
        let wrapped :=
          if makeOptionalNullable then
            let s1 := if st.maybeConfig.optional then ZodType.optional propSchema
              else propSchema
            if st.maybeConfig.nullable then ZodType.nullable s1 else s1
          else if popt then ZodType.optional propSchema
          else propSchema
        match genShape fuel rest st makeOptionalNullable with
        | .ok tailShape => .ok ((propNameText pname, wrapped) :: tailShape)
        | .err e => .err e
        | .diverge => .diverge
      | .err e => .err e
      | .diverge => .diverge
    | _ => genShape fuel rest st makeOptionalNullable
termination_by (fuel, 1, members.length)

/-- The sample switch of the source: the three handled primitive keywords,
the nonterminating self-recursion on type literals and unions, and the
z.unknown fallback. -/
def generateZodSwitch (fuel : Nat) (node : GNode) (st : GenState) : GRes ZodType :=
  match node with
  | .typeNode .stringKw => .ok .string
  | .typeNode .numberKw => .ok .number
  | .typeNode .booleanKw => .ok .boolean
  | .typeNode (.typeLiteral ms) => generateZodSchema fuel (.typeNode (.typeLiteral ms)) st
  | .typeNode (.unionType ts) => generateZodSchema fuel (.typeNode (.unionType ts)) st
  | _ => .ok .unknown
termination_by (fuel, 4, 0)

end

/-- The member map of buildZodObject as a standalone function (the
buildZodProperties loop of the source): used to state properties of the
object assembly. -/
def buildZodPropertiesMap (ctx : BuildCtx) (props : List TypeElement) :
    BM (List (Option (PropName × TsExpr))) :=
  BM.mapMem props fun m _ => buildZodPropertyEntry ctx m

/-- Type nodes whose compilation consumes the contextual modifier list
exactly once at the top level: primitive keywords, non-null literal
types, qualified enum references and bare (argument-free) type
references. -/
def topLevelModifierNode : TsNode → Bool
  | .stringKw => true
  | .numberKw => true
  | .booleanKw => true
  | .undefinedKw => true
  | .anyKw => true
  | .bigintKw => true
  | .voidKw => true
  | .neverKw => true
  | .unknownKw => true
  | .objectKw => true
  | .litType .null => false
  | .litType _ => true
  | .typeRef _ [] => true
  | .enumRef _ _ => true
  | _ => false

/-- A plain build context used by concrete instances: zod import value z,
empty source file, dependency names formed by appending Schema, default
maybe configuration. -/
def defaultTestCtx : BuildCtx :=
  { z := "z"
    sourceFile := []
    getDependencyName := fun n => n ++ "Schema"
    skipParseJSDoc := false
    customJSDocFormatTypes := []
    maybeConfig := DefaultMaybeConfig }

theorem withZodProperties_append (e : TsExpr) (ps qs : List ZodProperty) :
    withZodProperties e (ps ++ qs) = withZodProperties (withZodProperties e ps) qs := by
  simp [withZodProperties, List.foldl_append]

theorem jsDocTagToZodProperties_nullable (tags : JSDocTags)
    (fmts : List (String × String)) (o pa r : Bool) :
    jsDocTagToZodProperties tags fmts o pa r true
      = jsDocTagToZodProperties tags fmts o pa r false ++ [⟨"nullable", none⟩] := by
  simp [jsDocTagToZodProperties]

theorem eraseSchemaTag_idem (t : JSDocTags) :
    eraseSchemaTag (eraseSchemaTag t) = eraseSchemaTag t := rfl

theorem BM.mapMem_congr {γ β : Type} :
    ∀ (xs : List γ) (f g : (a : γ) → a ∈ xs → BM β),
      (∀ a h, f a h = g a h) → BM.mapMem xs f = BM.mapMem xs g
  | [], _, _, _ => rfl
  | x :: xs, f, g, hfg => by
    rw [BM.mapMem, BM.mapMem, hfg x (List.mem_cons_self x xs),
      BM.mapMem_congr xs _ _ (fun a h => hfg a (List.mem_cons_of_mem x h))]

/-- C1: a declaration carrying generic parameters is never compiled
directly into a standalone named schema: the variable-statement entry
rejects every generic-bearing interface (first conjunct) and type alias
(second conjunct) with a hard error.  Declarations registered as reserved
maybe interfaces are instead special-cased and compiled per concrete
instantiation by the generics-aware entry: compiling the registered
single-boolean-parameter interface Flag at either concrete boolean
instantiation yields a schema rather than a rejection (third conjunct). -/
theorem C1_generic_standalone_rejected :
    (∀ (ctx : BuildCtx) (v name tp : String) (tps : List String) her mems tags,
      generateZodSchemaVariableStatement ctx v
          (.interfaceDecl name (tp :: tps) her mems tags)
        = Except.error "Interface with generics are not supported!")
    ∧ (∀ (ctx : BuildCtx) (v name tp : String) (tps : List String) ty tags,
      generateZodSchemaVariableStatement ctx v
          (.typeAliasDecl name (tp :: tps) ty tags)
        = Except.error "Type with generics are not supported!")
    ∧ (∀ b : Bool,
      generateZodSchema 4
          (.typeNode (.typeRef "Flag" [.litType (if b then .btrue else .bfalse)]))
          { genericMap := []
            maybeConfig := ⟨true, true, ["Flag"]⟩
            rawFileAst := some [.interfaceDecl "Flag" ["T"] []
              [.prop (.ident "x") false {} .stringKw] {}] }
        = GRes.ok (.object [("x",
            if b then ZodType.string else ZodType.nullable (.optional .string))])) := by
  refine ⟨fun ctx v name tp tps her mems tags => rfl,
    fun ctx v name tp tps ty tags => rfl, fun b => ?_⟩
  cases b <;>
    simp [generateZodSchema, generateMaybeInterfaceSchema, generateInterfaceMembersSchema,
      genShape, generateZodSwitch, findInterfaceOrTypeAliasDecl, declTypeParams,
      mapGet, mapSet, mapErase, isLiteralTrueNode, propNameText,
      List.filter, List.enum, List.enumFrom, List.contains, List.isEmpty]

/-- C2 counterexample: with T bound to the string keyword in the Generic
Environment and a generic interface named T declared in the source file,
the reference T applied to the number keyword compiles by
generic-declaration expansion (into the unknown schema of the switch
fallback for interface declarations), not by substitution of the bound
string keyword: substitution does not have the highest precedence. -/
theorem C2_substitution_not_first_counterexample :
    mapGet [("T", TsNode.stringKw)] "T" = some TsNode.stringKw
    ∧ generateZodSchema 9 (.typeNode (.typeRef "T" [.numberKw]))
        ⟨[("T", TsNode.stringKw)], DefaultMaybeConfig,
          some [.interfaceDecl "T" ["U"] [] [] {}]⟩
      = GRes.ok .unknown
    ∧ generateZodSchema 9 (.typeNode TsNode.stringKw)
        ⟨[("T", TsNode.stringKw)], DefaultMaybeConfig,
          some [.interfaceDecl "T" ["U"] [] [] {}]⟩
      = GRes.ok .string
    ∧ GRes.ok ZodType.unknown ≠ GRes.ok ZodType.string := by
  refine ⟨rfl, ?_, ?_, by simp⟩
  · simp [generateZodSchema, generateZodSwitch, findInterfaceOrTypeAliasDecl,
      declTypeParams, mapGet, mapSet, DefaultMaybeConfig,
      List.filter, List.enum, List.enumFrom, List.contains, List.isEmpty]
  · simp [generateZodSchema, generateZodSwitch, mapGet, List.isEmpty]

/-- C2 amended: a type reference whose name is bound in the active
Generic Environment is substituted before any other rule fires, except
when the reference carries type arguments and the source file declares a
generic-parameterized interface or type alias of the same name; in that
case generic-declaration expansion fires first. -/
theorem C2_substitution_precedence_amended
    (fuel : Nat) (st : GenState) (name : String) (args : List TsNode) (bound : TsNode)
    (hb : mapGet st.genericMap name = some bound)
    (hnotexp : args.isEmpty = true ∨
      (match findInterfaceOrTypeAliasDecl name st.rawFileAst with
        | some d => (declTypeParams d).isEmpty = true
        | none => True)) :
    generateZodSchema (fuel+1) (.typeNode (.typeRef name args)) st
      = generateZodSchema fuel (.typeNode bound) st := by
  rw [generateZodSchema]
  split
  · rename_i decl hexp
    exfalso
    by_cases he : args.isEmpty = true
    · rw [if_pos he] at hexp
      exact Option.noConfusion hexp
    · rcases hnotexp with hargs | hdecl
      · exact he hargs
      · rw [if_neg he] at hexp
        rcases hfind : findInterfaceOrTypeAliasDecl name st.rawFileAst with _ | d
        · rw [hfind] at hexp
          exact Option.noConfusion hexp
        · simp only [hfind] at hexp hdecl
          rw [if_pos hdecl] at hexp
          exact Option.noConfusion hexp
  · rename_i hexp
    simp [hb]

/-- C2 amended, witness: a bare reference T with T bound to the string
keyword substitutes. -/
theorem C2_substitution_precedence_witness :
    generateZodSchema 4 (.typeNode (.typeRef "T" []))
        ⟨[("T", TsNode.stringKw)], DefaultMaybeConfig,
          some [.interfaceDecl "T" ["U"] [] [] {}]⟩
      = generateZodSchema 3 (.typeNode TsNode.stringKw)
        ⟨[("T", TsNode.stringKw)], DefaultMaybeConfig,
          some [.interfaceDecl "T" ["U"] [] [] {}]⟩ :=
  C2_substitution_precedence_amended 3 _ "T" [] TsNode.stringKw rfl (Or.inl rfl)

/-- C6: for an interface registered in the reserved maybe type names,
compilation requires exactly one generic parameter: zero parameters
(first conjunct) and two or more (second conjunct) are hard errors
naming the interface.  With exactly one parameter, the parameter is
resolved from the Generic Environment with the literal true as fallback,
deleted from the environment, and the members are compiled with the
optional-and-nullable override exactly when the resolution is not the
literal true (third conjunct).  The override wraps a compiled member
optional and nullable per the maybe configuration regardless of the
member flag, while without the override the member keeps its own
optional flag (fourth conjunct). -/
theorem C6_reserved_maybe_interface
    (fuel : Nat) (st : GenState) (name : String)
    (her : List (Bool × List (String × List TsNode)))
    (mems : List TypeElement) (tags : JSDocTags)
    (hreg : st.maybeConfig.typeNames.contains name = true) :
    (generateZodSchema (fuel+1) (.stmt (.interfaceDecl name [] her mems tags)) st
      = .err ("[ts-to-zod] maybeTypeNames interface " ++ name ++
          " must have exactly one generic parameter"))
    ∧ (∀ p q ps, generateZodSchema (fuel+1)
          (.stmt (.interfaceDecl name (p :: q :: ps) her mems tags)) st
      = .err ("[ts-to-zod] maybeTypeNames interface " ++ name ++
          " must have exactly one generic parameter"))
    ∧ (∀ p, generateZodSchema (fuel+1)
          (.stmt (.interfaceDecl name [p] her mems tags)) st
      = generateInterfaceMembersSchema fuel mems
          { st with genericMap := mapErase st.genericMap p }
          (!(isLiteralTrueNode ((mapGet st.genericMap p).getD (.litType .btrue)))))
    ∧ (∀ (fuel2 : Nat) (st2 : GenState) (mk : Bool) (pn : PropName) (popt : Bool)
          (ptags : JSDocTags) (pty : TsNode) (v : ZodType),
        generateZodSchema fuel2 (.typeNode pty) st2 = .ok v →
        generateInterfaceMembersSchema fuel2 [.prop pn popt ptags pty] st2 mk
          = .ok (.object [(propNameText pn,
              if mk then
                (if st2.maybeConfig.nullable then ZodType.nullable else id)
                  ((if st2.maybeConfig.optional then ZodType.optional else id) v)
              else if popt then .optional v else v)])) := by
  have hmem : name ∈ st.maybeConfig.typeNames := by simpa using hreg
  refine ⟨?_, fun p q ps => ?_, fun p => ?_, fun fuel2 st2 mk pn popt ptags pty v hv => ?_⟩
  · simp [generateZodSchema, hmem, generateMaybeInterfaceSchema]
  · simp [generateZodSchema, hmem, generateMaybeInterfaceSchema]
  · simp [generateZodSchema, hmem, generateMaybeInterfaceSchema]
  · simp [generateInterfaceMembersSchema, genShape, hv]
    cases mk <;> cases hopt : st2.maybeConfig.optional <;>
      cases hnul : st2.maybeConfig.nullable <;> simp [hopt, hnul]

/-- C6 witness: the override wraps a member that is not optional in the
source into an optional-and-nullable schema. -/
theorem C6_reserved_maybe_interface_witness :
    generateInterfaceMembersSchema 1 [.prop (.ident "x") false {} .stringKw]
        ⟨[], ⟨true, true, ["M"]⟩, none⟩ true
      = GRes.ok (.object [("x", ZodType.nullable (.optional .string))]) := by
  have h := (C6_reserved_maybe_interface 0 ⟨[], ⟨true, true, ["M"]⟩, none⟩ "M" [] [] {}
    (by rfl)).2.2.2 1 ⟨[], ⟨true, true, ["M"]⟩, none⟩ true (.ident "x") false {} .stringKw
    .string (by simp [generateZodSchema, generateZodSwitch])
  simpa [propNameText] using h

/-- C9: a type node matching no dispatch rule (here a conditional type)
compiles to the catch-all any combinator with the contextual modifiers
applied and one non-fatal warning (first conjunct), and never raises a
hard error, whatever the annotation tags (second conjunct). -/
theorem C9_unsupported_soft_fallback
    (ctx : BuildCtx) (a b c d : TsNode) (isOpt isNul isPart isReq : Bool)
    (tags0 : JSDocTags) :
    (buildZodPrimitive ctx
        { typeNode := .conditionalType a b c d, isOptional := isOpt, isNullable := isNul,
          isPartialFlag := isPart, isRequiredFlag := isReq,
          jsDocTags := { tags0 with schema := none } }
      = Except.ok (buildZodSchema ctx.z "any" []
            (jsDocTagToZodProperties { tags0 with schema := none }
              ctx.customJSDocFormatTypes isOpt isPart isReq isNul),
          [], [fallbackWarning (.conditionalType a b c d)]))
    ∧ (∀ tags1 : JSDocTags,
        Except.isOk (buildZodPrimitive ctx
          { typeNode := .conditionalType a b c d, isOptional := isOpt, isNullable := isNul,
            isPartialFlag := isPart, isRequiredFlag := isReq, jsDocTags := tags1 })
          = true) := by
  constructor
  · rw [buildZodPrimitive]
    simp [buildZodPrimitiveInternal, eraseSchemaTag, BM.warns]
  · intro tags1
    rw [buildZodPrimitive]
    rcases hs : tags1.schema with _ | s
    · rw [buildZodPrimitiveInternal]
      simp [eraseSchemaTag, BM.warns, Except.isOk, Except.toBool]
    · by_cases hd : s.startsWith "."
      · rw [buildZodPrimitiveInternal]
        simp [hd, eraseSchemaTag, BM.warns, BM.map, BM.pure, Except.isOk, Except.toBool]
      · simp [hd, BM.pure, Except.isOk, Except.toBool]

/-- C10: a type reference whose name is registered in the maybe type-name
set and which carries type arguments compiles to a call of the bare
identifier maybe applied to the first type argument compiled non-optional
with no annotation tags, with one trailing optional modifier exactly when
the member is optional; the configured maybe optional and nullable flags
do not occur in the result (the right-hand side does not consult them). -/
theorem C10_maybe_reference_call
    (ctx : BuildCtx) (name : String) (inner : TsNode) (restArgs : List TsNode)
    (isOpt isNul isPart isReq : Bool) (tags : JSDocTags)
    (hreg : ctx.maybeConfig.typeNames.contains name = true) :
    buildZodPrimitiveInternal ctx
        { typeNode := .typeRef name (inner :: restArgs), isOptional := isOpt,
          isNullable := isNul, isPartialFlag := isPart, isRequiredFlag := isReq,
          jsDocTags := tags }
      = BM.map (fun e => withZodProperties (TsExpr.call (TsExpr.ident "maybe") [e])
            (if isOpt then [zodPropertyIsOptional] else []))
          (buildZodPrimitive ctx
            { typeNode := inner, isOptional := false, isNullable := isNul,
              isPartialFlag := isPart, isRequiredFlag := isReq, jsDocTags := {} }) := by
  have hmem : name ∈ ctx.maybeConfig.typeNames := by simpa using hreg
  rw [buildZodPrimitiveInternal]
  simp [hmem, maybeCall]

/-- C10 witness: the registered name Maybe over the string keyword, on an
optional member. -/
theorem C10_maybe_reference_call_witness :
    buildZodPrimitiveInternal
        { defaultTestCtx with maybeConfig := ⟨true, true, ["Maybe"]⟩ }
        { typeNode := .typeRef "Maybe" [.stringKw], isOptional := true,
          jsDocTags := {} }
      = Except.ok (TsExpr.call
          (TsExpr.propAccess
            (TsExpr.call (TsExpr.ident "maybe")
              [TsExpr.call (TsExpr.propAccess (TsExpr.ident "z") "string") []])
            "optional") [],
        [], []) := by
  rw [C10_maybe_reference_call _ _ _ _ _ _ _ _ _ (by rfl)]
  rw [buildZodPrimitive]
  rw [buildZodPrimitiveInternal]
  simp [eraseSchemaTag, jsDocTagToZodProperties, BM.pure, BM.map,
    withZodProperties, buildZodSchema, zodPropertyIsOptional, defaultTestCtx]

/-- C8: compiling the reference form Array over T and the sugar form T[]
produce identical build results, for every element type, every contextual
flag combination and every annotation-tag map (Array must not itself be
registered as a maybe type name, which would divert the reference form to
the maybe rule). -/
theorem C8_array_sugar_equiv
    (ctx : BuildCtx) (t : TsNode) (isOpt isNul isPart isReq : Bool) (tags : JSDocTags)
    (hm : ctx.maybeConfig.typeNames.contains "Array" = false) :
    buildZodPrimitive ctx
        { typeNode := .typeRef "Array" [t], isOptional := isOpt, isNullable := isNul,
          isPartialFlag := isPart, isRequiredFlag := isReq, jsDocTags := tags }
      = buildZodPrimitive ctx
        { typeNode := .arrayType t, isOptional := isOpt, isNullable := isNul,
          isPartialFlag := isPart, isRequiredFlag := isReq, jsDocTags := tags } := by
  have hmem : "Array" ∉ ctx.maybeConfig.typeNames := by simpa using hm
  have key : buildZodPrimitiveInternal ctx
      { typeNode := .typeRef "Array" [t], isOptional := isOpt, isNullable := isNul,
        isPartialFlag := isPart, isRequiredFlag := isReq, jsDocTags := eraseSchemaTag tags }
      = buildZodPrimitiveInternal ctx
      { typeNode := .arrayType t, isOptional := isOpt, isNullable := isNul,
        isPartialFlag := isPart, isRequiredFlag := isReq, jsDocTags := eraseSchemaTag tags } := by
    rw [buildZodPrimitiveInternal]
    simp only [hmem, decide_eq_true_eq, ite_true, ite_false, if_neg, not_false_iff,
      List.elem_eq_mem, reduceIte]
    rw [buildZodPrimitive]
    simp [eraseSchemaTag_idem, eraseSchemaTag]
  rw [buildZodPrimitive, buildZodPrimitive]
  rcases hs : tags.schema with _ | s
  · simpa [hs] using key
  · by_cases hd : s.startsWith "."
    · simp [hs, hd, key]
    · simp [hs, hd]

/-- C8 witness: the two forms agree at the string element type in the
default context. -/
theorem C8_array_sugar_equiv_witness :
    buildZodPrimitive defaultTestCtx
        { typeNode := .typeRef "Array" [.stringKw], isOptional := false, jsDocTags := {} }
      = buildZodPrimitive defaultTestCtx
        { typeNode := .arrayType .stringKw, isOptional := false, jsDocTags := {} } :=
  C8_array_sugar_equiv defaultTestCtx .stringKw false false false false {} (by rfl)

/-- C7 counterexample: a single numeric-literal key set is neither a
string-literal type nor a union, yet the projection builder accepts it
and emits the mapping rather than raising a hard error. -/
theorem C7_numeric_key_counterexample :
    buildOmitPickObject "Omit" (.litType (.num "1")) (TsExpr.ident "s")
      = Except.ok (TsExpr.call (TsExpr.propAccess (TsExpr.ident "s") "omit")
          [TsExpr.objectLit [("1", TsExpr.trueLit)]]) := by
  rfl

/-- C7 amended: a single literal key of any literal kind compiles to the
lower-cased chained projection call with the object literal mapping the
key text to true (first conjunct); a union of literal keys maps every key
(second conjunct); a union containing a non-literal member is a hard
error naming the unsupported syntax (third conjunct); a key set that is
neither a literal type nor a union is a hard error naming the
unsupported syntax (fourth conjunct); and at the reference site,
Omit and Pick over a base type compile the base first (non-optional, no
tags) and chain the projection onto it (fifth conjunct). -/
theorem C7_omit_pick_projection
    (hname : True) :
    (∀ (name : String) (l : Lit) (zc : TsExpr),
      buildOmitPickObject name (.litType l) zc
        = Except.ok (TsExpr.call (TsExpr.propAccess zc (lowerWord name))
            [TsExpr.objectLit [(litText l, TsExpr.trueLit)]]))
    ∧ (∀ (name : String) (lits : List Lit) (zc : TsExpr),
      buildOmitPickObject name (.unionType (lits.map .litType)) zc
        = Except.ok (TsExpr.call (TsExpr.propAccess zc (lowerWord name))
            [TsExpr.objectLit (lits.map fun l => (litText l, TsExpr.trueLit))]))
    ∧ (∀ (name : String) (zc : TsExpr) (ls : List Lit) (t : TsNode) (rest : List TsNode),
      (∀ l, t ≠ .litType l) →
      buildOmitPickObject name (.unionType (ls.map .litType ++ t :: rest)) zc
        = Except.error (name ++ "<T, K> unknown syntax: (" ++ tsKindName t ++
            " as K union part not supported)"))
    ∧ (∀ (name : String) (zc : TsExpr) (keys : TsNode),
      (∀ l, keys ≠ .litType l) → (∀ ts, keys ≠ .unionType ts) →
      buildOmitPickObject name keys zc
        = Except.error (name ++ "<T, K> unknown syntax: (" ++ tsKindName keys ++
            " as K not supported)"))
    ∧ (∀ (ctx : BuildCtx) (name : String) (baseT keys : TsNode) (rest : List TsNode)
          (isOpt isNul isPart isReq : Bool) (tags : JSDocTags),
        (name = "Omit" ∨ name = "Pick") →
        ctx.maybeConfig.typeNames.contains name = false →
        buildZodPrimitiveInternal ctx
            { typeNode := .typeRef name (baseT :: keys :: rest), isOptional := isOpt,
              isNullable := isNul, isPartialFlag := isPart, isRequiredFlag := isReq,
              jsDocTags := tags }
          = BM.bind (buildZodPrimitive ctx
              { typeNode := baseT, isOptional := false, isNullable := isNul,
                jsDocTags := {} })
              (fun zodCall => BM.ofExcept (buildOmitPickObject name keys zodCall))) := by
  refine ⟨fun name l zc => rfl, fun name lits zc => ?_, fun name zc ls t rest ht => ?_,
    fun name zc keys h1 h2 => ?_, fun ctx name baseT keys rest isOpt isNul isPart isReq tags hname2 hm => ?_⟩
  · have hu : omitPickUnionParams name (lits.map .litType)
        = Except.ok (lits.map fun l => (litText l, TsExpr.trueLit)) := by
      induction lits with
      | nil => rfl
      | cons l ls ih => simp [omitPickUnionParams, ih, Except.map]
    simp [buildOmitPickObject, hu, Except.map]
  · have hu : omitPickUnionParams name (ls.map .litType ++ t :: rest)
        = Except.error (name ++ "<T, K> unknown syntax: (" ++ tsKindName t ++
            " as K union part not supported)") := by
      induction ls with
      | nil =>
        rcases t with _ | _ | _ | _ | _ | _ | _ | _ | _ | _ | _ | _ | l | _ | _ | _ | _ | _ | _ | _ | _ | _ | _
        all_goals first
        | exact absurd rfl (ht _)
        | simp [omitPickUnionParams]
      | cons l ls2 ih => simp [omitPickUnionParams, ih, Except.map]
    simp [buildOmitPickObject, hu, Except.map]
  · rcases keys with _ | _ | _ | _ | _ | _ | _ | _ | _ | _ | _ | _ | l | ts | _ | _ | _ | _ | _ | _ | _ | _ | _
    all_goals first
    | exact absurd rfl (h1 _)
    | exact absurd rfl (h2 _)
    | simp [buildOmitPickObject]
  · have hmem : name ∉ ctx.maybeConfig.typeNames := by simpa using hm
    rw [buildZodPrimitiveInternal]
    rcases hname2 with h | h <;> subst h <;> simp [hmem]

/-- C7 amended, witness: Omit of Person by the string-literal key age
yields the compiled base reference chained with omit mapping age to
true. -/
theorem C7_omit_pick_projection_witness :
    buildZodPrimitive defaultTestCtx
        { typeNode := .typeRef "Omit" [.typeRef "Person" [], .litType (.str "age")],
          isOptional := false, jsDocTags := {} }
      = Except.ok (TsExpr.call
          (TsExpr.propAccess (TsExpr.ident "PersonSchema") "omit")
          [TsExpr.objectLit [("\"age\"", TsExpr.trueLit)]],
        ["PersonSchema"], []) := by
  rw [buildZodPrimitive]
  rw [(C7_omit_pick_projection trivial).2.2.2.2 defaultTestCtx "Omit" (.typeRef "Person" [])
    (.litType (.str "age")) [] false false false false (eraseSchemaTag {})
    (Or.inl rfl) (by rfl)]
  rw [buildZodPrimitive]
  rw [buildZodPrimitiveInternal]
  simp [eraseSchemaTag, jsDocTagToZodProperties, BM.pure, BM.bind, BM.dep, BM.ofExcept,
    withZodProperties, defaultTestCtx, buildOmitPickObject, litText, lowerWord]

theorem BM.bind_pure_comp {α β : Type} (f : α → β) (x : BM α) :
    BM.bind x (fun a => BM.pure (f a)) = BM.map f x := by
  rcases x with e | ⟨a, d, w⟩ <;> simp [BM.bind, BM.pure, BM.map]


theorem BM.pure_bind {α β : Type} (a : α) (f : α → BM β) :
    BM.bind (BM.pure a) f = f a := by
  rcases h : f a with e | ⟨b, d, w⟩ <;> simp [BM.bind, BM.pure, h]

theorem BM.mapMem_nil {γ β : Type} (f : (a : γ) → a ∈ ([] : List γ) → BM β) :
    BM.mapMem [] f = BM.pure [] := rfl

theorem BM.mapMem_cons {γ β : Type} (x : γ) (xs : List γ)
    (f : (a : γ) → a ∈ x :: xs → BM β) :
    BM.mapMem (x :: xs) f
      = BM.bind (f x (List.mem_cons_self x xs)) fun b =>
        BM.bind (BM.mapMem xs (fun a h => f a (List.mem_cons_of_mem x h))) fun bs =>
        BM.pure (b :: bs) := rfl

theorem BM.ok_bind {α β : Type} (a : α) (d w : List String) (f : α → BM β) :
    BM.bind (Except.ok (a, d, w)) f
      = match f a with
        | .error e => .error e
        | .ok (b, d2, w2) => .ok (b, d ++ d2, w ++ w2) := rfl

/-- C4: for members with an index signature and no extension chain, the
index signature compiles to a one-argument record combinator over its
compiled value type; with no data members the record is returned alone
(first conjunct), and with data members present the result is the record
intersected with the members object schema, the record being the left
operand of the and call (second conjunct). -/
theorem C4_index_signature_record
    (ctx : BuildCtx) (members : List TypeElement) (t : TsNode)
    (hidx : (members.filterMap memberIndexType).getLast? = some t) :
    (members.filter memberIsProp = [] →
      buildZodObject ctx members none
        = BM.map (fun v => buildZodSchema ctx.z "record" [v])
            (buildZodPrimitive ctx { typeNode := t, isOptional := false, jsDocTags := {} }))
    ∧ (∀ parsedOpt d1 w1 v d2 w2,
      members.filter memberIsProp ≠ [] →
      buildZodPropertiesMap ctx (members.filter memberIsProp)
        = Except.ok (parsedOpt, d1, w1) →
      buildZodPrimitive ctx { typeNode := t, isOptional := false, jsDocTags := {} }
        = Except.ok (v, d2, w2) →
      buildZodObject ctx members none
        = Except.ok (TsExpr.call
            (TsExpr.propAccess (buildZodSchema ctx.z "record" [v]) "and")
            [buildZodSchema ctx.z "object"
              [TsExpr.objectLit (parsedOpt.reduceOption.map
                fun pr => (propNameText pr.1, pr.2))]],
          d1 ++ d2, w1 ++ w2)) := by
  constructor
  · intro hempty
    rw [buildZodObject]
    simp only [hempty, List.length_nil, gt_iff_lt, lt_self_iff_false, if_false,
      ite_false, reduceIte]
    rw [BM.pure_bind]
    split
    · rename_i idxType heq
      rw [hidx] at heq
      cases heq
      simp [BM.bind_pure_comp]
    · rename_i heq
      rw [hidx] at heq
      cases heq
  · intro parsedOpt d1 w1 v d2 w2 hne hpm hv
    have hlen : 0 < (members.filter memberIsProp).length := List.length_pos.mpr hne
    rw [buildZodObject]
    rw [if_pos hlen]
    rw [← buildZodPropertiesMap]
    rw [hpm, BM.ok_bind]
    simp only []
    rw [if_pos hlen]
    generalize hout : (List.filterMap memberIndexType members).getLast? = o
    rw [hout] at hidx
    subst hidx
    simp [hv, BM.bind, BM.pure]

/-- C4 witness: one string data member alongside a number index
signature compiles to the record intersected with the object, record
first. -/
theorem C4_index_signature_record_witness :
    buildZodObject defaultTestCtx
        [.prop (.ident "a") false {} .stringKw, .indexSig .numberKw] none
      = Except.ok (TsExpr.call
          (TsExpr.propAccess
            (buildZodSchema "z" "record"
              [TsExpr.call (TsExpr.propAccess (TsExpr.ident "z") "number") []]) "and")
          [buildZodSchema "z" "object"
            [TsExpr.objectLit [("a",
              TsExpr.call (TsExpr.propAccess (TsExpr.ident "z") "string") [])]]],
        [], []) := by
  have h := (C4_index_signature_record defaultTestCtx
    [.prop (.ident "a") false {} .stringKw, .indexSig .numberKw] .numberKw
    (by rfl)).2
    [some ((PropName.ident "a"),
      TsExpr.call (TsExpr.propAccess (TsExpr.ident "z") "string") [])] [] []
    (TsExpr.call (TsExpr.propAccess (TsExpr.ident "z") "number") []) [] []
    (by simp [memberIsProp, List.filter])
    (by
      rw [buildZodPropertiesMap]
      rw [show ([TypeElement.prop (.ident "a") false {} .stringKw,
        TypeElement.indexSig .numberKw].filter memberIsProp)
        = [TypeElement.prop (.ident "a") false {} .stringKw] from rfl]
      rw [BM.mapMem_cons, BM.mapMem_nil]
      rw [buildZodPropertyEntry]
      rw [buildZodPrimitive]
      rw [buildZodPrimitiveInternal]
      rfl)
    (by
      rw [buildZodPrimitive]
      rw [buildZodPrimitiveInternal]
      rfl)
  simpa [propNameText, defaultTestCtx] using h

/-- C5: when every span of a template-literal type harvests successfully
(no soft-degrade), the compiler emits a union of string-literal
combinators over the cartesian product of the harvested segment-value
lists interleaved with the static literal segments (the head first, each
span value list followed by its literal tail), in order, with one
trailing nullable modifier exactly when some span union carried a literal
null arm. -/
theorem C5_template_literal_expansion
    (ctx : BuildCtx) (head : String) (spans : List (TsNode × String))
    (hasNull : Bool) (lists : List (List String)) (warns : List String)
    (hh : harvestSpans ctx.sourceFile spans = ⟨false, hasNull, lists, warns⟩) :
    buildZodPrimitive ctx
        { typeNode := .templateLiteral head spans, isOptional := false, jsDocTags := {} }
      = Except.ok (buildZodSchema ctx.z "union"
          [TsExpr.arrayLit ((generateCombinations ([head] :: lists)).map fun v =>
            buildZodSchema ctx.z "literal" [TsExpr.strLit v])]
          (if hasNull then [⟨"nullable", none⟩] else []),
        [], warns) := by
  rw [buildZodPrimitive]
  rw [buildZodPrimitiveInternal]
  simp [hh, eraseSchemaTag, jsDocTagToZodProperties, BM.warns]

/-- C5 witness: head x- over the union alias of the literals a and b with
an empty tail yields the union of the literals x-a and x-b, in that
order. -/
theorem C5_template_literal_expansion_witness :
    buildZodPrimitive
        { defaultTestCtx with sourceFile :=
            [.typeAliasDecl "A" []
              (.unionType [.litType (.str "a"), .litType (.str "b")]) {}] }
        { typeNode := .templateLiteral "x-" [(.typeRef "A" [], "")],
          isOptional := false, jsDocTags := {} }
      = Except.ok (buildZodSchema "z" "union"
          [TsExpr.arrayLit
            [buildZodSchema "z" "literal" [TsExpr.strLit "x-a"],
             buildZodSchema "z" "literal" [TsExpr.strLit "x-b"]]] [],
        [], []) := by
  have h := C5_template_literal_expansion
    { defaultTestCtx with sourceFile :=
        [.typeAliasDecl "A" []
          (.unionType [.litType (.str "a"), .litType (.str "b")]) {}] }
    "x-" [(.typeRef "A" [], "")] false [["a", "b"], [""]] [] (by rfl)
  simpa [generateCombinations, defaultTestCtx] using h


theorem topLevelModifierNode_isNotNull :
    ∀ t : TsNode, topLevelModifierNode t = true → isNotNull t = true
  | .litType .null, h => by simp [topLevelModifierNode] at h
  | .litType (.str _), _ => rfl
  | .litType (.num _), _ => rfl
  | .litType (.negNum _), _ => rfl
  | .litType .btrue, _ => rfl
  | .litType .bfalse, _ => rfl
  | .stringKw, _ => rfl
  | .numberKw, _ => rfl
  | .booleanKw, _ => rfl
  | .undefinedKw, _ => rfl
  | .anyKw, _ => rfl
  | .bigintKw, _ => rfl
  | .voidKw, _ => rfl
  | .neverKw, _ => rfl
  | .unknownKw, _ => rfl
  | .objectKw, _ => rfl
  | .typeRef _ _, _ => rfl
  | .enumRef _ _, _ => rfl
  | .unionType _, _ => rfl
  | .intersectionType _, _ => rfl
  | .arrayType _, _ => rfl
  | .tupleType _, _ => rfl
  | .restType _, _ => rfl
  | .namedTupleMember _ _, _ => rfl
  | .typeLiteral _, _ => rfl
  | .parenType _, _ => rfl
  | .templateLiteral _ _, _ => rfl
  | .conditionalType _ _ _ _, _ => rfl

theorem buildZodPrimitive_emptyTags (ctx : BuildCtx) (t : TsNode)
    (isOpt isNul isPart isReq : Bool) :
    buildZodPrimitive ctx ⟨t, isOpt, isNul, isPart, isReq, {}⟩
      = buildZodPrimitiveInternal ctx ⟨t, isOpt, isNul, isPart, isReq, {}⟩ := by
  rw [buildZodPrimitive]
  rfl

theorem union_filter_single (ctx : BuildCtx) (types : List TsNode) (isOpt : Bool)
    (x : TsNode) (hfil : types.filter isNotNull = [x]) :
    buildZodPrimitive ctx
        { typeNode := .unionType types, isOptional := isOpt, jsDocTags := {} }
      = buildZodPrimitive ctx
        { typeNode := x, isOptional := isOpt,
          isNullable := types.any isNullLiteralNode, jsDocTags := {} } := by
  rw [buildZodPrimitive_emptyTags]
  simp only [buildZodPrimitiveInternal]
  split
  · rename_i node1 heq
    rw [hfil] at heq
    cases heq
    rfl
  · rename_i hne
    exact absurd hfil (hne x)

theorem union_filter_multi (ctx : BuildCtx) (types : List TsNode) (isOpt : Bool)
    (a b : TsNode) (rest : List TsNode) (hfil : types.filter isNotNull = a :: b :: rest) :
    buildZodPrimitive ctx
        { typeNode := .unionType types, isOptional := isOpt, jsDocTags := {} }
      = BM.bind (BM.mapMem (a :: b :: rest) (fun i _ =>
            buildZodPrimitive ctx
              { typeNode := i, isOptional := false, jsDocTags := {} })) (fun values =>
          BM.pure (buildZodSchema ctx.z "union" [TsExpr.arrayLit values]
            ((if isOpt then [zodPropertyIsOptional] else []) ++
              (if types.any isNullLiteralNode then [⟨"nullable", none⟩] else [])))) := by
  rw [buildZodPrimitive_emptyTags]
  simp only [buildZodPrimitiveInternal]
  split
  · rename_i node1 heq
    rw [hfil] at heq
    simp at heq
  · rename_i hne
    rw [hfil]
    simp [jsDocTagToZodProperties, zodPropertyIsOptional]

theorem nullableFlag_modifier (ctx : BuildCtx) (t : TsNode) (isOpt : Bool)
    (h : topLevelModifierNode t = true) :
    buildZodPrimitive ctx
        { typeNode := t, isOptional := isOpt, isNullable := true, jsDocTags := {} }
      = BM.map (fun e => TsExpr.call (TsExpr.propAccess e "nullable") [])
          (buildZodPrimitive ctx
            { typeNode := t, isOptional := isOpt, jsDocTags := {} }) := by
  cases t with
  | stringKw =>
    rw [buildZodPrimitive_emptyTags, buildZodPrimitive_emptyTags]
    rw [buildZodPrimitiveInternal, buildZodPrimitiveInternal]
    cases isOpt <;> rfl
  | numberKw =>
    rw [buildZodPrimitive_emptyTags, buildZodPrimitive_emptyTags]
    rw [buildZodPrimitiveInternal, buildZodPrimitiveInternal]
    cases isOpt <;> rfl
  | booleanKw =>
    rw [buildZodPrimitive_emptyTags, buildZodPrimitive_emptyTags]
    rw [buildZodPrimitiveInternal, buildZodPrimitiveInternal]
    cases isOpt <;> rfl
  | undefinedKw =>
    rw [buildZodPrimitive_emptyTags, buildZodPrimitive_emptyTags]
    rw [buildZodPrimitiveInternal, buildZodPrimitiveInternal]
    cases isOpt <;> rfl
  | anyKw =>
    rw [buildZodPrimitive_emptyTags, buildZodPrimitive_emptyTags]
    rw [buildZodPrimitiveInternal, buildZodPrimitiveInternal]
    cases isOpt <;> rfl
  | bigintKw =>
    rw [buildZodPrimitive_emptyTags, buildZodPrimitive_emptyTags]
    rw [buildZodPrimitiveInternal, buildZodPrimitiveInternal]
    cases isOpt <;> rfl
  | voidKw =>
    rw [buildZodPrimitive_emptyTags, buildZodPrimitive_emptyTags]
    rw [buildZodPrimitiveInternal, buildZodPrimitiveInternal]
    cases isOpt <;> rfl
  | neverKw =>
    rw [buildZodPrimitive_emptyTags, buildZodPrimitive_emptyTags]
    rw [buildZodPrimitiveInternal, buildZodPrimitiveInternal]
    cases isOpt <;> rfl
  | unknownKw =>
    rw [buildZodPrimitive_emptyTags, buildZodPrimitive_emptyTags]
    rw [buildZodPrimitiveInternal, buildZodPrimitiveInternal]
    cases isOpt <;> rfl
  | objectKw =>
    rw [buildZodPrimitive_emptyTags, buildZodPrimitive_emptyTags]
    rw [buildZodPrimitiveInternal, buildZodPrimitiveInternal]
    cases isOpt <;> rfl
  | enumRef enumName memberName =>
    rw [buildZodPrimitive_emptyTags, buildZodPrimitive_emptyTags]
    rw [buildZodPrimitiveInternal, buildZodPrimitiveInternal]
    cases isOpt <;> rfl
  | litType l =>
    cases l with
    | null => simp [topLevelModifierNode] at h
    | str s =>
      rw [buildZodPrimitive_emptyTags, buildZodPrimitive_emptyTags]
      rw [buildZodPrimitiveInternal, buildZodPrimitiveInternal]
      cases isOpt <;> rfl
    | num s =>
      rw [buildZodPrimitive_emptyTags, buildZodPrimitive_emptyTags]
      rw [buildZodPrimitiveInternal, buildZodPrimitiveInternal]
      cases isOpt <;> rfl
    | negNum s =>
      rw [buildZodPrimitive_emptyTags, buildZodPrimitive_emptyTags]
      rw [buildZodPrimitiveInternal, buildZodPrimitiveInternal]
      cases isOpt <;> rfl
    | btrue =>
      rw [buildZodPrimitive_emptyTags, buildZodPrimitive_emptyTags]
      rw [buildZodPrimitiveInternal, buildZodPrimitiveInternal]
      cases isOpt <;> rfl
    | bfalse =>
      rw [buildZodPrimitive_emptyTags, buildZodPrimitive_emptyTags]
      rw [buildZodPrimitiveInternal, buildZodPrimitiveInternal]
      cases isOpt <;> rfl
  | typeRef name args =>
    cases args with
    | cons y ys => simp [topLevelModifierNode] at h
    | nil =>
      rw [buildZodPrimitive_emptyTags, buildZodPrimitive_emptyTags]
      rw [buildZodPrimitiveInternal, buildZodPrimitiveInternal]
      by_cases hD : name = "Date" <;> cases isOpt <;>
        simp [hD, BM.map, BM.pure, BM.dep, jsDocTagToZodProperties, buildZodSchema,
          withZodProperties, zodPropertyIsOptional]
  | unionType types => simp [topLevelModifierNode] at h
  | intersectionType types => simp [topLevelModifierNode] at h
  | arrayType e => simp [topLevelModifierNode] at h
  | tupleType es => simp [topLevelModifierNode] at h
  | restType e => simp [topLevelModifierNode] at h
  | namedTupleMember n e => simp [topLevelModifierNode] at h
  | typeLiteral ms => simp [topLevelModifierNode] at h
  | parenType e => simp [topLevelModifierNode] at h
  | templateLiteral hd sp => simp [topLevelModifierNode] at h
  | conditionalType c e tr fa => simp [topLevelModifierNode] at h

/-- C3 counterexample: for the array type T = string[], compiling T | null
does not equal compiling T with an appended nullable modifier: the
stripped null arm is threaded into the array as a nullable flag and also
reaches the element type, so the union form nests a second nullable
inside the array (first conjunct) while the appended form has only the
outer one (second conjunct); the two results differ (third conjunct). -/
theorem C3_null_union_counterexample :
    buildZodPrimitive defaultTestCtx
        { typeNode := .unionType [.arrayType .stringKw, .litType .null],
          isOptional := false, jsDocTags := {} }
      = Except.ok (TsExpr.call (TsExpr.propAccess
          (TsExpr.call (TsExpr.propAccess (TsExpr.ident "z") "array")
            [TsExpr.call (TsExpr.propAccess
              (TsExpr.call (TsExpr.propAccess (TsExpr.ident "z") "string") [])
              "nullable") []])
          "nullable") [], [], [])
    ∧ BM.map (fun e => TsExpr.call (TsExpr.propAccess e "nullable") [])
        (buildZodPrimitive defaultTestCtx
          { typeNode := .arrayType .stringKw, isOptional := false, jsDocTags := {} })
      = Except.ok (TsExpr.call (TsExpr.propAccess
          (TsExpr.call (TsExpr.propAccess (TsExpr.ident "z") "array")
            [TsExpr.call (TsExpr.propAccess (TsExpr.ident "z") "string") []])
          "nullable") [], [], [])
    ∧ (Except.ok (TsExpr.call (TsExpr.propAccess
          (TsExpr.call (TsExpr.propAccess (TsExpr.ident "z") "array")
            [TsExpr.call (TsExpr.propAccess
              (TsExpr.call (TsExpr.propAccess (TsExpr.ident "z") "string") [])
              "nullable") []])
          "nullable") [], ([] : List String), ([] : List String)) : BM TsExpr)
      ≠ Except.ok (TsExpr.call (TsExpr.propAccess
          (TsExpr.call (TsExpr.propAccess (TsExpr.ident "z") "array")
            [TsExpr.call (TsExpr.propAccess (TsExpr.ident "z") "string") []])
          "nullable") [], [], []) := by
  refine ⟨?_, ?_, ?_⟩
  · rw [union_filter_single defaultTestCtx [.arrayType .stringKw, .litType .null]
      false (.arrayType .stringKw) (by rfl)]
    simp only [buildZodPrimitive, buildZodPrimitiveInternal]
    try rfl
  · simp only [buildZodPrimitive, buildZodPrimitiveInternal]
    try rfl
  · simp

/-- C3 (amended): union compilation strips literal null arms and
re-attaches their presence out of band.  With at least two surviving arms
the compiler emits a union combinator over exactly the non-null arms with
a trailing nullable modifier appended exactly when a null arm was present
(second conjunct); with a single surviving arm that arm is compiled
directly -- no one-arm union combinator -- with the null presence passed
down as the contextual nullable flag (first conjunct); and for an arm of
the top-level-modifier class (primitive keywords, non-null literal types,
qualified enum references and bare type references) compiling T | null
equals compiling T with one appended trailing nullable modifier (third
conjunct).  The third identity does not extend to arbitrary non-union T:
for an array type the threaded flag also reaches the element type, as the
recorded counterexample shows. -/
theorem C3_union_null_stripping (ctx : BuildCtx) (isOpt : Bool) :
    (∀ (types : List TsNode) (x : TsNode), types.filter isNotNull = [x] →
        buildZodPrimitive ctx
            { typeNode := .unionType types, isOptional := isOpt, jsDocTags := {} }
          = buildZodPrimitive ctx
            { typeNode := x, isOptional := isOpt,
              isNullable := types.any isNullLiteralNode, jsDocTags := {} })
    ∧ (∀ (types : List TsNode) (a b : TsNode) (rest : List TsNode),
        types.filter isNotNull = a :: b :: rest →
        buildZodPrimitive ctx
            { typeNode := .unionType types, isOptional := isOpt, jsDocTags := {} }
          = BM.bind (BM.mapMem (a :: b :: rest) (fun i _ =>
                buildZodPrimitive ctx
                  { typeNode := i, isOptional := false, jsDocTags := {} })) (fun values =>
              BM.pure (buildZodSchema ctx.z "union" [TsExpr.arrayLit values]
                ((if isOpt then [zodPropertyIsOptional] else []) ++
                  (if types.any isNullLiteralNode then [⟨"nullable", none⟩] else [])))))
    ∧ (∀ t : TsNode, topLevelModifierNode t = true →
        buildZodPrimitive ctx
            { typeNode := .unionType [t, .litType .null], isOptional := isOpt,
              jsDocTags := {} }
          = BM.map (fun e => TsExpr.call (TsExpr.propAccess e "nullable") [])
              (buildZodPrimitive ctx
                { typeNode := t, isOptional := isOpt, jsDocTags := {} })) := by
  refine ⟨fun types x h => union_filter_single ctx types isOpt x h,
    fun types a b rest h => union_filter_multi ctx types isOpt a b rest h, ?_⟩
  intro t ht
  have hnn : isNotNull t = true := topLevelModifierNode_isNotNull t ht
  have hfil : ([t, TsNode.litType .null].filter isNotNull) = [t] := by
    simp [List.filter_cons, hnn, show isNotNull (TsNode.litType .null) = false from rfl]
  have h1 := union_filter_single ctx [t, .litType .null] isOpt t hfil
  have hany : ([t, TsNode.litType .null].any isNullLiteralNode) = true := by
    simp [isNullLiteralNode]
  rw [h1, hany]
  exact nullableFlag_modifier ctx t isOpt ht

/-- C3 witness: at the string keyword in the default context, compiling
string | null equals compiling string with one appended nullable
modifier. -/
theorem C3_union_null_stripping_witness :
    buildZodPrimitive defaultTestCtx
        { typeNode := .unionType [.stringKw, .litType .null], isOptional := false,
          jsDocTags := {} }
      = BM.map (fun e => TsExpr.call (TsExpr.propAccess e "nullable") [])
          (buildZodPrimitive defaultTestCtx
            { typeNode := .stringKw, isOptional := false, jsDocTags := {} }) :=
  (C3_union_null_stripping defaultTestCtx false).2.2 TsNode.stringKw rfl
